import Mathlib

/-!
# Verification of the doc_steward documentation-coverage core

A shallow embedding of `src/doc_steward.py`: the declaration extractor
(`DocstringExtractor`), the entity flattener (`get_entity_list`), the coverage
aggregator (`generate_coverage_report`), the documentation synthesizer
(`generate_google_docstring`) and the documentation inserter
(`apply_missing_docstrings`), together with theorems settling the frozen
claims about this code.

Python strings are modelled as `List Char` (a Python `str` is a sequence of
code points).  The external syntax-tree parser (`ast`) is an external
collaborator; its output is modelled by the `Stmt`/`PyModule` types below,
which expose exactly what the extractor reads: node kind, name, line span,
argument lists and body statements.  The filesystem is a map from paths to
`FSEntry`.  Fallible operations return `Except PyError`.
-/

/-- A Python string: a sequence of characters. -/
abbrev PyStr := List Char

/-- Characters of a Lean string literal, used to write `PyStr` constants. -/
def chars (s : String) : PyStr := s.data

/-- Python truthiness of an optional string: `None` and `""` are falsy,
every non-empty string is truthy (`bool(x)` in the source). -/
def pyBool : Option PyStr → Bool
  | none => false
  | some s => !s.isEmpty

/-- The argument list of a Python callable as exposed by `ast.arguments`:
positional-only arguments, plain positional arguments (`args`), `*args`,
keyword-only arguments and `**kwargs`. -/
structure Arguments where
  posonlyargs : List PyStr
  args : List PyStr
  vararg : Option PyStr
  kwonlyargs : List PyStr
  kwarg : Option PyStr

/-- A statement node of the parsed syntax tree, restricted to what the
extractor distinguishes: ordinary/async function definitions, class
definitions, bare string-literal expression statements, and anything else.
The parser collaborator guarantees `lineno`/`endLineno` are the 1-based
line span of the node in the source text. -/
inductive Stmt where
  | funcDef (isAsync : Bool) (name : PyStr) (fnArgs : Arguments)
      (lineno endLineno : Nat) (body : List Stmt)
  | classDef (name : PyStr) (lineno endLineno : Nat) (body : List Stmt)
  | exprStr (value : PyStr) (lineno : Nat)
  | other (lineno : Nat)

/-- A parsed module: the top-level statement list of one source file. -/
structure PyModule where
  body : List Stmt

/-- Python `'\n'.join(lines)`: a newline between consecutive lines, no
trailing newline.  (Also the physical-line decomposition used for the
synthesized blocks below.) -/
def lineJoin : List PyStr → PyStr
  | [] => []
  | [l] => l
  | l :: ls => l ++ '\n' :: lineJoin ls

/-- Python `str.split('\n')`. -/
def splitNL : PyStr → List PyStr
  | [] => [[]]
  | c :: cs =>
    if c = '\n' then [] :: splitNL cs
    else
      match splitNL cs with
      | [] => [[c]]
      | l :: ls => (c :: l) :: ls

/-- Python `str.expandtabs()` at the default tab size 8: each tab becomes
spaces up to the next multiple of 8; the column resets after a newline or
carriage return. -/
def expandTabsAux : PyStr → Nat → PyStr
  | [], _ => []
  | c :: cs, col =>
    if c = '\t' then
      List.replicate (8 - col % 8) ' ' ++ expandTabsAux cs (col + (8 - col % 8))
    else if c = '\n' ∨ c = '\r' then c :: expandTabsAux cs 0
    else c :: expandTabsAux cs (col + 1)

/-- `inspect.cleandoc`'s `margin`: the minimum indentation over the
continuation lines that have content after stripping leading spaces
(`none` plays `sys.maxsize` — no such line). -/
def cleandocMargin (ls : List PyStr) : Option Nat :=
  ls.foldl
    (fun m l =>
      if (l.dropWhile (fun c => c = ' ')).length ≠ 0 then
        match m with
        | none => some (l.length - (l.dropWhile (fun c => c = ' ')).length)
        | some mm => some (min mm (l.length - (l.dropWhile (fun c => c = ' ')).length))
      else m)
    none

/-- `inspect.cleandoc`'s indentation removal: the first line loses all its
leading spaces; every continuation line loses the common margin (when one
exists). -/
def cleandocLines : List PyStr → List PyStr
  | [] => []
  | l0 :: rest =>
    l0.dropWhile (fun c => c = ' ') ::
      (match cleandocMargin rest with
       | none => rest
       | some margin => rest.map (fun l => l.drop margin))

/-- `while lines and not lines[-1]: lines.pop()` — remove trailing EMPTY
lines (a whitespace-only but non-empty line is truthy and stays). -/
def dropTrailingEmpty (ls : List PyStr) : List PyStr :=
  (ls.reverse.dropWhile (fun l => l.isEmpty)).reverse

/-- `inspect.cleandoc`: expand tabs, split into lines, strip the first
line's leading spaces and the common margin of the continuation lines,
drop trailing then leading empty lines, and re-join with newlines. -/
def pyCleandoc (doc : PyStr) : PyStr :=
  lineJoin
    ((dropTrailingEmpty (cleandocLines (splitNL (expandTabsAux doc 0)))).dropWhile
      (fun l => l.isEmpty))

/-- `ast.get_docstring`: if the first statement of the body is a bare
string-literal expression, its text normalized with `inspect.cleandoc`,
otherwise `None`. -/
def get_docstring : List Stmt → Option PyStr
  | Stmt.exprStr s _ :: _ => some (pyCleandoc s)
  | _ => none

/-- `doc_steward.py` line 50: the extracted argument names of a callable,
`[arg.arg for arg in node.args.args if arg.arg not in ('self', 'cls')]`.
Only the plain positional slot `args.args` is read. -/
def pyArgsFilter (a : Arguments) : List PyStr :=
  a.args.filter (fun s => !(s == chars "self" || s == chars "cls"))

/-- The per-callable record built by `DocstringExtractor._visit_callable`. -/
structure FuncInfo where
  name : PyStr
  docstring : Option PyStr
  line : Nat
  end_line : Nat
  fnArgs : List PyStr
deriving DecidableEq

/-- The per-class record built by `DocstringExtractor.visit_ClassDef`. -/
structure ClassInfo where
  name : PyStr
  docstring : Option PyStr
  line : Nat
  end_line : Nat
  methods : List FuncInfo
deriving DecidableEq

/-- The `entities` dictionary built by `DocstringExtractor`. -/
structure Entities where
  module_docstring : Option PyStr
  module_line : Nat
  module_name : PyStr
  classes : List ClassInfo
  functions : List FuncInfo
deriving DecidableEq

/-- Mutable extractor state during the tree walk: the `classes` and
`functions` lists of the `entities` dictionary. -/
structure ExtState where
  classes : List ClassInfo
  functions : List FuncInfo
deriving DecidableEq

/-- Replace the element at index `i` (Python mutates the `class_info`
dictionary held in the `classes` list in place; here the list entry is
rebuilt). -/
def modifyAt (i : Nat) (f : ClassInfo → ClassInfo) : List ClassInfo → List ClassInfo
  | [] => []
  | c :: cs =>
    match i with
    | 0 => f c :: cs
    | j + 1 => c :: modifyAt j f cs

mutual
/-- One step of the `ast.NodeVisitor` walk of `DocstringExtractor`.
`cur` is the index of `_current_class` in the accumulated `classes` list
(`none` at module level).  `_visit_callable` does not call
`generic_visit`, so function bodies are not walked; `visit_ClassDef`
does call it, so class bodies are. -/
def visitStmt (cur : Option Nat) (st : ExtState) : Stmt → ExtState
  | .funcDef _ n a l e body =>
    let fi : FuncInfo := ⟨n, get_docstring body, l, e, pyArgsFilter a⟩
    match cur with
    | some i =>
      { st with classes := modifyAt i (fun c => { c with methods := c.methods ++ [fi] }) st.classes }
    | none => { st with functions := st.functions ++ [fi] }
  | .classDef n l e body =>
    let ci : ClassInfo := ⟨n, get_docstring body, l, e, []⟩
    let i := st.classes.length
    visitStmts (some i) { st with classes := st.classes ++ [ci] } body
  | .exprStr _ _ => st
  | .other _ => st

/-- `generic_visit` over a statement list, in source order. -/
def visitStmts (cur : Option Nat) (st : ExtState) : List Stmt → ExtState
  | [] => st
  | s :: rest => visitStmts cur (visitStmt cur st s) rest
end

/-- Run `DocstringExtractor` on a parsed module: `visit_Module` records the
module docstring and `generic_visit` walks the top-level statements. -/
def extract_entities (m : PyModule) : Entities :=
  let st := visitStmts none ⟨[], []⟩ m.body
  { module_docstring := get_docstring m.body
    module_line := 1
    module_name := chars "Module"
    classes := st.classes
    functions := st.functions }

/-- What the filesystem holds at a path: no file, an unreadable file, a file
whose text does not parse, or a successfully parsed file. -/
inductive FSEntry where
  | missing
  | unreadable
  | unparseable
  | parsed (m : PyModule)

/-- The error taxonomy visible to callers: `SyntaxError` from `ast.parse`
and `OSError` from `open`/read. -/
inductive PyError where
  | parseError
  | ioError
deriving DecidableEq

/-- `analyze_file`: open and read the file, parse it, run the extractor.
A missing or unreadable file raises `OSError`; unparseable text raises
`SyntaxError`; otherwise the extractor's entities are returned. -/
def analyze_file (fs : PyStr → FSEntry) (path : PyStr) : Except PyError Entities :=
  match fs path with
  | .missing => .error .ioError
  | .unreadable => .error .ioError
  | .unparseable => .error .parseError
  | .parsed m => .ok (extract_entities m)

/-- One row of the flat display list produced by `get_entity_list`. -/
structure EntityRecord where
  function_name : PyStr
  type : PyStr
  start_line : Nat
  end_line : Nat
  has_docstring : Bool
deriving DecidableEq

/-- The row built for a module-level function. -/
def funcRecord (f : FuncInfo) : EntityRecord :=
  ⟨f.name, chars "Function", f.line, f.end_line, pyBool f.docstring⟩

/-- The row built for a class. -/
def classRecord (c : ClassInfo) : EntityRecord :=
  ⟨c.name, chars "Class", c.line, c.end_line, pyBool c.docstring⟩

/-- The row built for a method. -/
def methodRecord (m : FuncInfo) : EntityRecord :=
  ⟨m.name, chars "Method", m.line, m.end_line, pyBool m.docstring⟩

/-- The loop body of `get_entity_list`: first all functions are appended,
then each class followed by its methods. -/
def entity_list_of (e : Entities) : List EntityRecord :=
  let l1 := e.functions.foldl (fun acc f => acc ++ [funcRecord f]) []
  e.classes.foldl
    (fun acc c => c.methods.foldl (fun acc2 m => acc2 ++ [methodRecord m]) (acc ++ [classRecord c]))
    l1

/-- `get_entity_list`: analyze the file, then flatten its entities. -/
def get_entity_list (fs : PyStr → FSEntry) (path : PyStr) :
    Except PyError (List EntityRecord) :=
  (analyze_file fs path).map entity_list_of

/-- `" " * n`. -/
def spaces (n : Nat) : PyStr := List.replicate n ' '

/-- Python `str.capitalize()`: first character uppercased, all remaining
characters lowercased. -/
def pyCapitalize : PyStr → PyStr
  | [] => []
  | c :: cs => c.toUpper :: cs.map Char.toLower

/-- `name.replace("_", " ")` — for a one-character pattern this is a
character-wise replacement. -/
def underscoreToSpace (s : PyStr) : PyStr :=
  s.map (fun c => if c = '_' then ' ' else c)

/-- `generate_google_docstring(name, args, is_class, indent)`.  The source
defaults `args` to `None` and tests `if args:`; `None` and `[]` are both
falsy there, so the argument is modelled as a plain list with `[]` at the
class call sites. -/
def generate_google_docstring (name : PyStr) (fnArgs : List PyStr)
    (is_class : Bool) (indent : Nat) : PyStr :=
  let pad := spaces indent
  let doc := pad ++ chars "\"\"\"" ++ pyCapitalize (underscoreToSpace name) ++ chars ".\n\n"
  let doc := if fnArgs.isEmpty then doc else
    fnArgs.foldl
      (fun d a => d ++ pad ++ spaces 4 ++ a ++ chars ": Description of " ++ a ++ chars ".\n")
      (doc ++ pad ++ chars "Args:\n")
  let doc := if is_class then doc else
    doc ++ chars "\n" ++ pad ++ chars "Returns:\n" ++ pad ++ spaces 4
        ++ chars "Description of the return value.\n"
  doc ++ pad ++ chars "\"\"\""

/-- The mutable counter pair of `generate_coverage_report`'s inner `check`. -/
structure FileStats where
  total : Nat
  documented : Nat
deriving DecidableEq

/-- The body of `check(item)`: increment `total`, and `documented` when the
item's docstring is truthy. -/
def statCheck (st : FileStats) (doc : Option PyStr) : FileStats :=
  { total := st.total + 1
    documented := if pyBool doc then st.documented + 1 else st.documented }

/-- The docstrings visited by the `check` calls of
`generate_coverage_report`, in source order: the module, then each class
followed by its methods, then the module-level functions. -/
def checkItems (e : Entities) : List (Option PyStr) :=
  e.module_docstring ::
    e.classes.flatMap (fun c => c.docstring :: c.methods.map (·.docstring))
      ++ e.functions.map (·.docstring)

/-- The per-file `file_stats` accumulated by the `check` calls. -/
def file_stats (e : Entities) : FileStats :=
  (checkItems e).foldl statCheck ⟨0, 0⟩

/-- Round-half-to-even on an exact rational, as Python's `round` (banker's
rounding).  The binary-float tie behaviour of the real implementation is
not modelled; no claim settled here sits on a tie. -/
def roundHalfEven (x : ℚ) : ℤ :=
  if x - ⌊x⌋ < 1 / 2 then ⌊x⌋
  else if 1 / 2 < x - ⌊x⌋ then ⌊x⌋ + 1
  else if ⌊x⌋ % 2 = 0 then ⌊x⌋ else ⌊x⌋ + 1

/-- Python `round(x, 2)` over exact rationals. -/
def pyRound2 (x : ℚ) : ℚ := (roundHalfEven (x * 100) : ℚ) / 100

/-- The unrounded per-file coverage expression of `generate_coverage_report`:
`(documented / total * 100) if total > 0 else 0.0`. -/
def covRaw (st : FileStats) : ℚ :=
  if st.total > 0 then (st.documented : ℚ) / (st.total : ℚ) * 100 else 0

/-- One value of the `details` dictionary, keyed by file path. -/
structure Detail where
  path : PyStr
  coverage : ℚ
  stats : FileStats

/-- The report dictionary of `generate_coverage_report`. -/
structure Report where
  files_analyzed : Nat
  total_entities : Nat
  documented_entities : Nat
  details : List Detail
  overall_coverage : ℚ

/-- Assignment into the `details` dict: overwrite the entry for an existing
key in place, otherwise append (Python dicts preserve insertion order). -/
def setDetail (ds : List Detail) (d : Detail) : List Detail :=
  if ds.any (fun x => x.path == d.path) then
    ds.map (fun x => if x.path == d.path then d else x)
  else ds ++ [d]

/-- The body of one iteration of the per-file loop for an existing,
parseable file: accumulate the file's stats into the running totals and
write its detail row. -/
def coverageUpdate (r : Report) (path : PyStr) (m : PyModule) : Report :=
  { r with
    total_entities := r.total_entities + (file_stats (extract_entities m)).total
    documented_entities :=
      r.documented_entities + (file_stats (extract_entities m)).documented
    details := setDetail r.details
      ⟨path, pyRound2 (covRaw (file_stats (extract_entities m))),
       file_stats (extract_entities m)⟩ }

/-- The per-file loop of `generate_coverage_report`: a path that does not
exist is skipped with `continue`; otherwise `analyze_file` runs (so a read
failure raises `OSError` and a parse failure raises `SyntaxError`, aborting
the whole call), the stats are accumulated and a detail row is written. -/
def coverageFold (fs : PyStr → FSEntry) : Report → List PyStr → Except PyError Report
  | r, [] => .ok r
  | r, path :: rest =>
    match fs path with
    | .missing => coverageFold fs r rest
    | .unreadable => .error .ioError
    | .unparseable => .error .parseError
    | .parsed m => coverageFold fs (coverageUpdate r path m) rest

/-- `generate_coverage_report(files)`: `files_analyzed` is set to
`len(files)` up front, the per-file loop runs, and finally
`overall_coverage` is computed from the summed counts. -/
def generate_coverage_report (fs : PyStr → FSEntry) (files : List PyStr) :
    Except PyError Report :=
  match coverageFold fs
      { files_analyzed := files.length, total_entities := 0,
        documented_entities := 0, details := [], overall_coverage := 0 } files with
  | .error e => .error e
  | .ok r =>
    .ok { r with overall_coverage :=
      (if r.total_entities > 0 then
        pyRound2 ((r.documented_entities : ℚ) / (r.total_entities : ℚ) * 100)
      else 0) }

/-- `len(line) - len(line.lstrip())`: the number of leading whitespace
characters of a line. -/
def indentOf (line : PyStr) : Nat :=
  line.length - (line.dropWhile Char.isWhitespace).length

/-- `os.path.basename`: the final path component. -/
def pyBasename (p : PyStr) : PyStr := (List.splitOn '/' p).getLastD []

/-- The single-line module docstring synthesized by
`apply_missing_docstrings` when the module lacks one. -/
def moduleDocstring (path : PyStr) : PyStr :=
  chars "\"\"\"" ++ pyCapitalize (pyBasename path) ++ chars " module.\"\"\"\n"

/-- The `to_add` list of `apply_missing_docstrings`: pairs of nominal line
number and synthesized block, collected from undocumented functions, then
classes and their methods, then the module.  `lines` indexing uses the
declaration's 1-based `lineno`. -/
def collectToAdd (e : Entities) (path : PyStr) (lines : List PyStr) :
    List (Nat × PyStr) :=
  let t1 := e.functions.foldl
    (fun acc f =>
      if pyBool f.docstring then acc
      else
        let defLine := lines.getD (f.line - 1) []
        acc ++ [(f.line, generate_google_docstring f.name f.fnArgs false (indentOf defLine + 4))])
    []
  let t2 := e.classes.foldl
    (fun acc c =>
      let acc :=
        if pyBool c.docstring then acc
        else
          acc ++ [(c.line, generate_google_docstring c.name [] true
            (indentOf (lines.getD (c.line - 1) []) + 4))]
      c.methods.foldl
        (fun acc2 m =>
          if pyBool m.docstring then acc2
          else
            let defLine := lines.getD (m.line - 1) []
            acc2 ++ [(m.line, generate_google_docstring m.name m.fnArgs false (indentOf defLine + 4))])
        acc)
    t1
  if pyBool e.module_docstring then t2 else t2 ++ [(0, moduleDocstring path)]

/-- Stable insertion into a descending-sorted list: an element goes after
every element with a greater-or-equal key. -/
def insertDesc (p : Nat × PyStr) : List (Nat × PyStr) → List (Nat × PyStr)
  | [] => [p]
  | q :: qs => if q.1 < p.1 then p :: q :: qs else q :: insertDesc p qs

/-- `to_add.sort(key=lambda x: x[0], reverse=True)`: stable sort by
descending line number. -/
def sortDesc (l : List (Nat × PyStr)) : List (Nat × PyStr) :=
  l.foldl (fun acc p => insertDesc p acc) []

/-- The scan loop `while curr_idx < len(lines) and ":" not in lines[curr_idx]`,
written structurally over the remaining suffix: returns the index of the
first line at or after `i` containing a colon, or `len(lines)` when the
scan runs off the end. -/
def findColonAux : List PyStr → Nat → Nat
  | [], i => i
  | l :: rest, i => if l.contains ':' then i else findColonAux rest (i + 1)

/-- `curr_idx` after the scan loop, starting at index `i`. -/
def findColonFrom (lines : List PyStr) (i : Nat) : Nat :=
  findColonAux (lines.drop i) i

/-- Python `list.insert(i, x)`: splice at `i`, clamping an out-of-range
index to an append. -/
def pyInsert (lines : List PyStr) (i : Nat) (s : PyStr) : List PyStr :=
  lines.take i ++ [s] ++ lines.drop i

/-- The body of the insertion loop of `apply_missing_docstrings` for one
`(line_idx, doc_str)` pair: line 0 inserts at the very top, otherwise the
scan finds the header-terminator line and the block goes right after it.
The inserted element is the whole block plus a trailing newline (one list
element that spans several physical lines once written out). -/
def applyInsertion (lines : List PyStr) (ins : Nat × PyStr) : List PyStr :=
  if ins.1 = 0 then pyInsert lines 0 (ins.2 ++ chars "\n")
  else pyInsert lines (findColonFrom lines (ins.1 - 1) + 1) (ins.2 ++ chars "\n")

/-- `apply_missing_docstrings`: collect the pending insertions from the
file's extracted entities, sort them by descending line number, and splice
each block into the in-memory line list.  The rewritten line list is what
gets written back to the file. -/
def apply_missing_docstrings (m : PyModule) (path : PyStr) (lines : List PyStr) :
    List PyStr :=
  (sortDesc (collectToAdd (extract_entities m) path lines)).foldl applyInsertion lines

/-! ## Specification-side definitions

Definitions below follow the spec's words (for refinement comparisons) or
package concrete inputs used by the theorems; they are not translations of
further source code. -/

/-- Spec §4.3: per-file `total` = count of all Declarations — module, every
type, every method, every module-level callable. -/
def declCountSpec (e : Entities) : Nat :=
  1 + e.classes.length + (e.classes.map (fun c => c.methods.length)).sum
    + e.functions.length

/-- Spec §4.3: per-file `documented` = count of Declarations whose
documentation is present. -/
def docCountSpec (e : Entities) : Nat :=
  (if pyBool e.module_docstring then 1 else 0)
    + e.classes.countP (fun c => pyBool c.docstring)
    + (e.classes.map (fun c => c.methods.countP (fun m => pyBool m.docstring))).sum
    + e.functions.countP (fun f => pyBool f.docstring)

/-- Spec §4.3: the raw summed `(total, documented)` counts across a file
list, skipping entries that are not successfully parsed files. -/
def sumStatsSpec (fs : PyStr → FSEntry) : List PyStr → FileStats
  | [] => ⟨0, 0⟩
  | p :: rest =>
    match fs p with
    | .parsed m =>
      ⟨(file_stats (extract_entities m)).total + (sumStatsSpec fs rest).total,
       (file_stats (extract_entities m)).documented + (sumStatsSpec fs rest).documented⟩
    | _ => sumStatsSpec fs rest

/-- Forget the `files_analyzed` field (for comparing reports up to it). -/
def eraseFA (r : Report) : Report := { r with files_analyzed := 0 }

/-- Whether a filesystem entry is an unreadable file. -/
def isUnreadable : FSEntry → Bool
  | .unreadable => true
  | _ => false

/-- Whether a filesystem entry is a file that fails to parse. -/
def isUnparseable : FSEntry → Bool
  | .unparseable => true
  | _ => false

/-- The flattener's output order as amended: all module-level callables
first, in declaration order, then each type in extractor traversal order
immediately followed by its methods in declaration order. -/
def flattenSpecC5 (e : Entities) : List EntityRecord :=
  e.functions.map funcRecord
    ++ e.classes.flatMap (fun c => classRecord c :: c.methods.map methodRecord)

/-- Spec §4.1: whether the first statement of a body is a bare
string-literal expression. -/
def firstStmtIsStringLit : List Stmt → Bool
  | Stmt.exprStr _ _ :: _ => true
  | _ => false

/-- Each line terminated by a newline, concatenated. -/
def joinNL (ls : List PyStr) : PyStr :=
  (ls.map (fun l => l ++ ['\n'])).flatten

/-- Spec §4.4: one Args-section line, `<param>: Description of <param>.`,
at the section indent. -/
def argLine (pad a : PyStr) : PyStr :=
  pad ++ spaces 4 ++ a ++ chars ": Description of " ++ a ++ chars "."

/-- Spec §4.4, amended: the physical lines of a synthesized block — the
name line, a blank separator, an Args section only when the parameter list
is non-empty, for non-types a blank separator and a Returns section, and
the closing quote line.  Blank separator lines are empty (carry no
indentation). -/
def docLinesSpec (name : PyStr) (fnArgs : List PyStr) (is_class : Bool)
    (indent : Nat) : List PyStr :=
  let pad := spaces indent
  [pad ++ chars "\"\"\"" ++ pyCapitalize (underscoreToSpace name) ++ chars ".", []]
    ++ (if fnArgs.isEmpty then [] else
        (pad ++ chars "Args:") :: fnArgs.map (argLine pad))
    ++ (if is_class then [] else
        [[], pad ++ chars "Returns:", pad ++ spaces 4 ++ chars "Description of the return value."])
    ++ [pad ++ chars "\"\"\""]

/-- Spec §4.1: all declared parameter names of a callable, in order. -/
def declaredParams (a : Arguments) : List PyStr :=
  a.posonlyargs ++ a.args ++ a.vararg.toList ++ a.kwonlyargs ++ a.kwarg.toList

/-- The claim's reading of the extracted parameters: every declared
parameter name minus the receiver names. -/
def declaredMinusReceivers (a : Arguments) : List PyStr :=
  (declaredParams a).filter (fun s => !(s == chars "self" || s == chars "cls"))

/-- Every callable record of an inventory: module-level functions and all
methods. -/
def allCallableInfos (e : Entities) : List FuncInfo :=
  e.functions ++ e.classes.flatMap (fun c => c.methods)

/-! ## Concrete inputs used by counterexamples and witnesses -/

/-- An empty argument list. -/
def noArgs : Arguments := ⟨[], [], none, [], none⟩

/-- The parse tree of the one-line file `def f(): pass` — an undocumented
module whose single statement is an undocumented zero-parameter function
whose body sits on the header line. -/
def mInline : PyModule := ⟨[.funcDef false (chars "f") noArgs 1 1 [.other 1]]⟩

/-- A parsed file with a documented module and nothing else. -/
def mGood : PyModule := ⟨[.exprStr (chars "doc") 1]⟩

/-- A filesystem with one parseable file `good.py` and one syntactically
invalid file `bad.py`. -/
def fsC4 : PyStr → FSEntry := fun p =>
  if p = chars "good.py" then .parsed mGood
  else if p = chars "bad.py" then .unparseable
  else .missing

/-- A module declaring a class `A` (line 1) before a function `f`
(line 10). -/
def mClassThenFunc : PyModule :=
  ⟨[.classDef (chars "A") 1 2 [], .funcDef false (chars "f") noArgs 10 11 []]⟩

/-- A module whose only function's body starts with an empty string
literal. -/
def mEmptyDoc : PyModule :=
  ⟨[.funcDef false (chars "f") noArgs 1 2 [.exprStr [] 2]]⟩

/-- Arguments `(a, *, b)`: one plain positional parameter and one
keyword-only parameter. -/
def aKwOnly : Arguments := ⟨[], [chars "a"], none, [chars "b"], none⟩

/-- A module with a single function `g(a, *, b)`. -/
def mKwOnly : PyModule := ⟨[.funcDef false (chars "g") aKwOnly 1 2 []]⟩

/-- A documented module with 20000 undocumented functions: 1 documented
declaration out of 20001. -/
def mBig : PyModule :=
  ⟨Stmt.exprStr (chars "doc") 1 ::
    List.replicate 20000 (Stmt.funcDef false (chars "u") noArgs 2 2 [])⟩

/-- A filesystem holding only `big.py` ↦ `mBig`. -/
def fsBig : PyStr → FSEntry := fun p =>
  if p = chars "big.py" then .parsed mBig else .missing

/-- A five-line file whose second declaration's header wraps across three
physical lines, with the terminator colon on the third header line. -/
def linesWrapped : List PyStr :=
  [chars "import os\n", chars "def g(a,\n", chars "      b,\n",
   chars "      c):\n", chars "    return a\n"]

/-! ## Helper lemmas -/

theorem foldl_statCheck (l : List (Option PyStr)) : ∀ t d : Nat,
    l.foldl statCheck ⟨t, d⟩ = ⟨t + l.length, d + l.countP pyBool⟩ := by
  induction l with
  | nil => intro t d; rfl
  | cons a l ih =>
    intro t d
    show (a :: l).foldl statCheck ⟨t, d⟩ = _
    rw [List.foldl_cons]
    have hstep : statCheck ⟨t, d⟩ a =
        ⟨t + 1, if pyBool a then d + 1 else d⟩ := rfl
    rw [hstep, ih]
    rw [List.countP_cons]
    by_cases h : pyBool a = true <;> simp [h] <;> omega

theorem flatMap_doc_length (cs : List ClassInfo) :
    (cs.flatMap (fun c => c.docstring :: c.methods.map (·.docstring))).length
      = cs.length + (cs.map (fun c => c.methods.length)).sum := by
  induction cs with
  | nil => simp
  | cons c cs ih => simp [List.flatMap_cons, ih]; omega

theorem flatMap_doc_countP (cs : List ClassInfo) :
    ((cs.flatMap (fun c => c.docstring :: c.methods.map (·.docstring))).countP pyBool)
      = cs.countP (fun c => pyBool c.docstring)
        + (cs.map (fun c => c.methods.countP (fun m => pyBool m.docstring))).sum := by
  induction cs with
  | nil => simp
  | cons c cs ih =>
    simp only [List.flatMap_cons, List.countP_append, List.countP_cons, ih,
      List.map_cons, List.sum_cons]
    rw [List.countP_map]
    simp only [Function.comp_def]
    omega

theorem file_stats_spec (e : Entities) :
    file_stats e = ⟨declCountSpec e, docCountSpec e⟩ := by
  unfold file_stats checkItems
  rw [foldl_statCheck]
  congr 1
  · simp only [List.length_append, List.length_cons, flatMap_doc_length,
      List.length_map]
    unfold declCountSpec
    omega
  · simp only [List.countP_append, List.countP_cons, flatMap_doc_countP,
      List.countP_map, Function.comp_def]
    unfold docCountSpec
    by_cases h : pyBool e.module_docstring = true <;> simp [h] <;> omega

theorem roundHalfEven_of_lt (x : ℚ) (n : ℤ) (h1 : (n : ℚ) ≤ x)
    (h2 : x < (n : ℚ) + 1 / 2) : roundHalfEven x = n := by
  have hf : ⌊x⌋ = n := Int.floor_eq_iff.mpr ⟨h1, by linarith⟩
  have hlt : x - ((n : ℤ) : ℚ) < 1 / 2 := by linarith
  unfold roundHalfEven
  rw [hf, if_pos hlt]

theorem pyRound2_zero : pyRound2 0 = 0 := by
  unfold pyRound2
  rw [show (0 : ℚ) * 100 = ((0 : ℤ) : ℚ) by norm_num]
  rw [roundHalfEven_of_lt _ 0 (by norm_num) (by norm_num)]
  norm_num

theorem pyRound2_covRaw (st : FileStats) :
    pyRound2 (covRaw st) =
      (if st.total > 0 then
        pyRound2 ((st.documented : ℚ) / (st.total : ℚ) * 100) else 0) := by
  unfold covRaw
  by_cases h : st.total > 0
  · simp [h]
  · simp [h, pyRound2_zero]

/-! ## Claim C1 — round trip of Documentation Insertion

The code violates the claim: on the legal one-line file `def f(): pass`
the inserter splices the synthesized block after the header line even
though the function body sits on that same line, producing a file whose
first `f`-body statement is still `pass` and which no longer parses
(unexpected indent), so re-running the Extractor cannot report
`has_documentation = true`.  The theorem below evaluates the inserter at
that input. -/

/-- C1: evaluating `apply_missing_docstrings` on the file
`def f(): pass` shows the synthesized function block is spliced directly
after the inline-body header line (and an out-of-place module docstring
line is prepended), corrupting the file instead of documenting `f`. -/
theorem C1_inline_body_corruption :
    apply_missing_docstrings mInline (chars "f.py") [chars "def f(): pass\n"] =
      [chars "\"\"\"F.py module.\"\"\"\n\n",
       chars "def f(): pass\n",
       chars "    \"\"\"F.\n\n\n    Returns:\n        Description of the return value.\n    \"\"\"\n"]
    ∧ firstStmtIsStringLit [Stmt.other 1] = false := by
  decide

/-! ## Claim C3 — missing files and `files_analyzed` -/

/-- C3 counterexample: a report over the single nonexistent path
`ghost.py` is produced without error and with empty totals and details,
but `files_analyzed` is `1`, not `0` — the claim says a missing path is
not counted in `files_analyzed`. -/
theorem C3_counterexample :
    generate_coverage_report (fun _ => FSEntry.missing) [chars "ghost.py"] =
      .ok ⟨1, 0, 0, [], 0⟩
    ∧ (1 : Nat) ≠ 0 :=
  ⟨rfl, by decide⟩

theorem coverageFold_cons (fs : PyStr → FSEntry) (r : Report) (p : PyStr)
    (rest : List PyStr) :
    coverageFold fs r (p :: rest) =
      match fs p with
      | .missing => coverageFold fs r rest
      | .unreadable => .error .ioError
      | .unparseable => .error .parseError
      | .parsed m => coverageFold fs (coverageUpdate r p m) rest := rfl

theorem coverageFold_skip_missing (fs : PyStr → FSEntry) (p : PyStr)
    (hp : fs p = .missing) (files₁ files₂ : List PyStr) : ∀ r,
    coverageFold fs r (files₁ ++ p :: files₂) = coverageFold fs r (files₁ ++ files₂) := by
  induction files₁ with
  | nil =>
    intro r
    show coverageFold fs r (p :: files₂) = _
    simp only [coverageFold_cons, hp, List.nil_append]
  | cons q files₁ ih =>
    intro r
    show coverageFold fs r (q :: (files₁ ++ p :: files₂)) = _
    cases hq : fs q with
    | missing => simp only [List.cons_append, coverageFold_cons, hq]; exact ih r
    | unreadable => simp only [List.cons_append, coverageFold_cons, hq]
    | unparseable => simp only [List.cons_append, coverageFold_cons, hq]
    | parsed m => simp only [List.cons_append, coverageFold_cons, hq]; exact ih _

theorem coverageFold_files_analyzed (fs : PyStr → FSEntry) :
    ∀ (files : List PyStr) (r0 r : Report),
    coverageFold fs r0 files = .ok r → r.files_analyzed = r0.files_analyzed := by
  intro files
  induction files with
  | nil =>
    intro r0 r h
    cases h
    rfl
  | cons q files ih =>
    intro r0 r h
    cases hq : fs q with
    | missing => simp only [coverageFold_cons, hq] at h; exact ih r0 r h
    | unreadable => simp only [coverageFold_cons, hq] at h; cases h
    | unparseable => simp only [coverageFold_cons, hq] at h; cases h
    | parsed m =>
      simp only [coverageFold_cons, hq] at h
      exact ih (coverageUpdate r0 q m) r h

theorem coverageFold_set_fa (fs : PyStr → FSEntry) :
    ∀ (files : List PyStr) (r0 : Report) (n : Nat),
    coverageFold fs { r0 with files_analyzed := n } files =
      (coverageFold fs r0 files).map (fun x => { x with files_analyzed := n }) := by
  intro files
  induction files with
  | nil => intro r0 n; rfl
  | cons q files ih =>
    intro r0 n
    cases hq : fs q with
    | missing => simp only [coverageFold_cons, hq]; exact ih r0 n
    | unreadable => simp only [coverageFold_cons, hq]; rfl
    | unparseable => simp only [coverageFold_cons, hq]; rfl
    | parsed m =>
      simp only [coverageFold_cons, hq]
      have harg : coverageUpdate { r0 with files_analyzed := n } q m =
          { coverageUpdate r0 q m with files_analyzed := n } := rfl
      rw [harg]
      exact ih _ n

/-- C3 (amended): a path that does not exist is silently skipped — no
error is raised and it contributes nothing to the totals or per-file
details (deleting it from the file list changes nothing but
`files_analyzed`) — but it IS counted in `files_analyzed`, which is set to
the length of the raw input list before any existence check. -/
theorem C3_amended_missing_path (fs : PyStr → FSEntry) (files₁ files₂ : List PyStr)
    (p : PyStr) (hp : fs p = .missing) :
    (generate_coverage_report fs (files₁ ++ p :: files₂)).map eraseFA
      = (generate_coverage_report fs (files₁ ++ files₂)).map eraseFA
    ∧ ∀ r, generate_coverage_report fs (files₁ ++ p :: files₂) = .ok r →
        r.files_analyzed = (files₁ ++ p :: files₂).length := by
  have base0 : Report := ⟨0, 0, 0, [], 0⟩
  constructor
  · unfold generate_coverage_report
    have h1 : coverageFold fs
        { files_analyzed := (files₁ ++ p :: files₂).length, total_entities := 0,
          documented_entities := 0, details := [], overall_coverage := 0 }
        (files₁ ++ p :: files₂)
        = (coverageFold fs ⟨0, 0, 0, [], 0⟩ (files₁ ++ files₂)).map
            (fun x => { x with files_analyzed := (files₁ ++ p :: files₂).length }) := by
      rw [coverageFold_skip_missing fs p hp files₁ files₂]
      exact coverageFold_set_fa fs (files₁ ++ files₂) ⟨0, 0, 0, [], 0⟩ _
    have h2 : coverageFold fs
        { files_analyzed := (files₁ ++ files₂).length, total_entities := 0,
          documented_entities := 0, details := [], overall_coverage := 0 }
        (files₁ ++ files₂)
        = (coverageFold fs ⟨0, 0, 0, [], 0⟩ (files₁ ++ files₂)).map
            (fun x => { x with files_analyzed := (files₁ ++ files₂).length }) := by
      exact coverageFold_set_fa fs (files₁ ++ files₂) ⟨0, 0, 0, [], 0⟩ _
    rw [h1, h2]
    cases hres : coverageFold fs ⟨0, 0, 0, [], 0⟩ (files₁ ++ files₂) with
    | error e => rfl
    | ok r => rfl
  · intro r h
    unfold generate_coverage_report at h
    cases hres : coverageFold fs
        { files_analyzed := (files₁ ++ p :: files₂).length, total_entities := 0,
          documented_entities := 0, details := [], overall_coverage := 0 }
        (files₁ ++ p :: files₂) with
    | error e => rw [hres] at h; cases h
    | ok r' =>
      rw [hres] at h
      have hr : r = { r' with overall_coverage :=
          (if r'.total_entities > 0 then
            pyRound2 ((r'.documented_entities : ℚ) / (r'.total_entities : ℚ) * 100)
          else 0) } := by
        cases h
        rfl
      have hfa := coverageFold_files_analyzed fs (files₁ ++ p :: files₂) _ r' hres
      rw [hr]
      exact hfa

/-- C3 witness: the amended theorem applied to a filesystem with no files
and the single path `x`. -/
theorem C3_amended_missing_path_witness :
    (generate_coverage_report (fun _ => FSEntry.missing) ([] ++ chars "x" :: [])).map eraseFA
      = (generate_coverage_report (fun _ => FSEntry.missing) ([] ++ [])).map eraseFA
    ∧ ∀ r, generate_coverage_report (fun _ => FSEntry.missing) ([] ++ chars "x" :: []) = .ok r →
        r.files_analyzed = ([] ++ chars "x" :: []).length :=
  C3_amended_missing_path (fun _ => FSEntry.missing) [] [] (chars "x") rfl

/-! ## Claim C4 — parse failure in a multi-file coverage run -/

/-- C4 counterexample: with `good.py` parseable and `bad.py` syntactically
invalid, the batch run over both files raises the parse error instead of
producing a report that skips `bad.py`; analyzing `bad.py` individually
raises the same parse error. -/
theorem C4_counterexample :
    generate_coverage_report fsC4 [chars "good.py", chars "bad.py"] = .error .parseError
    ∧ analyze_file fsC4 (chars "bad.py") = .error .parseError :=
  ⟨rfl, rfl⟩

theorem coverageFold_unparseable (fs : PyStr → FSEntry) :
    ∀ (files : List PyStr) (r0 : Report),
    (∃ p ∈ files, isUnparseable (fs p) = true) →
    (∀ q ∈ files, isUnreadable (fs q) = false) →
    coverageFold fs r0 files = .error .parseError := by
  intro files
  induction files with
  | nil =>
    intro r0 hex _
    rcases hex with ⟨p, hmem, _⟩
    cases hmem
  | cons q files ih =>
    intro r0 hex hall
    cases hq : fs q with
    | missing =>
      simp only [coverageFold_cons, hq]
      rcases hex with ⟨p, hmem, hp⟩
      rcases List.mem_cons.mp hmem with rfl | hmem'
      · rw [hq] at hp; cases hp
      · exact ih r0 ⟨p, hmem', hp⟩ (fun x hx => hall x (List.mem_cons_of_mem q hx))
    | unreadable =>
      have := hall q (List.mem_cons_self q files)
      rw [hq] at this
      cases this
    | unparseable => simp only [coverageFold_cons, hq]
    | parsed m =>
      simp only [coverageFold_cons, hq]
      rcases hex with ⟨p, hmem, hp⟩
      rcases List.mem_cons.mp hmem with rfl | hmem'
      · rw [hq] at hp; cases hp
      · exact ih _ ⟨p, hmem', hp⟩ (fun x hx => hall x (List.mem_cons_of_mem q hx))

/-- C4 (amended): a parse failure is NOT local to one file — when any file
of a batch run fails to parse (and no file is unreadable, which would
raise first), `generate_coverage_report` raises the parse error and no
batch report is produced; only nonexistent paths are skipped.  Analyzing
the unparseable file individually raises the same parse error. -/
theorem C4_amended_parse_error_aborts (fs : PyStr → FSEntry) (files : List PyStr)
    (p : PyStr) (hmem : p ∈ files) (hp : isUnparseable (fs p) = true)
    (hall : ∀ q ∈ files, isUnreadable (fs q) = false) :
    generate_coverage_report fs files = .error .parseError
    ∧ analyze_file fs p = .error .parseError := by
  constructor
  · unfold generate_coverage_report
    rw [coverageFold_unparseable fs files _ ⟨p, hmem, hp⟩ hall]
  · unfold analyze_file
    cases hfs : fs p with
    | missing => rw [hfs] at hp; cases hp
    | unreadable => rw [hfs] at hp; cases hp
    | unparseable => rfl
    | parsed m => rw [hfs] at hp; cases hp

/-- C4 witness: the amended theorem applied to the concrete two-file
filesystem of the counterexample scenario. -/
theorem C4_amended_parse_error_aborts_witness :
    generate_coverage_report fsC4 [chars "good.py", chars "bad.py"] = .error .parseError
    ∧ analyze_file fsC4 (chars "bad.py") = .error .parseError :=
  C4_amended_parse_error_aborts fsC4 [chars "good.py", chars "bad.py"]
    (chars "bad.py") (by decide) (by decide) (by decide)

/-! ## Claim C2 — coverage aggregation -/

theorem mem_setDetail (ds : List Detail) (d x : Detail) (hx : x ∈ setDetail ds d) :
    x ∈ ds ∨ x = d := by
  unfold setDetail at hx
  by_cases h : ds.any (fun y => y.path == d.path) = true
  · rw [if_pos h] at hx
    rcases List.mem_map.mp hx with ⟨y, hy, hxy⟩
    by_cases hyp : (y.path == d.path) = true
    · right; rw [if_pos hyp] at hxy; exact hxy.symm
    · left; rw [if_neg hyp] at hxy; exact hxy ▸ hy
  · rw [if_neg h] at hx
    rcases List.mem_append.mp hx with h1 | h1
    · left; exact h1
    · right; simpa using h1

theorem coverageFold_ok_spec (fs : PyStr → FSEntry) :
    ∀ (files : List PyStr) (r0 r : Report),
    coverageFold fs r0 files = .ok r →
    r.total_entities = r0.total_entities + (sumStatsSpec fs files).total
    ∧ r.documented_entities = r0.documented_entities + (sumStatsSpec fs files).documented
    ∧ ∀ d ∈ r.details, d ∈ r0.details ∨
        ∃ m, fs d.path = .parsed m ∧ d.stats = file_stats (extract_entities m)
          ∧ d.coverage = pyRound2 (covRaw d.stats) := by
  intro files
  induction files with
  | nil =>
    intro r0 r h
    cases h
    exact ⟨by simp [sumStatsSpec], by simp [sumStatsSpec], fun d hd => Or.inl hd⟩
  | cons q files ih =>
    intro r0 r h
    cases hq : fs q with
    | missing =>
      simp only [coverageFold_cons, hq] at h
      rcases ih r0 r h with ⟨h1, h2, h3⟩
      refine ⟨?_, ?_, h3⟩
      · simp only [sumStatsSpec, hq]
        exact h1
      · simp only [sumStatsSpec, hq]
        exact h2
    | unreadable => simp only [coverageFold_cons, hq] at h; cases h
    | unparseable => simp only [coverageFold_cons, hq] at h; cases h
    | parsed m =>
      simp only [coverageFold_cons, hq] at h
      rcases ih _ r h with ⟨h1, h2, h3⟩
      refine ⟨?_, ?_, ?_⟩
      · rw [h1]
        simp only [sumStatsSpec, hq, coverageUpdate]
        omega
      · rw [h2]
        simp only [sumStatsSpec, hq, coverageUpdate]
        omega
      · intro d hd
        rcases h3 d hd with hin | hgood
        · have hin' : d ∈ setDetail r0.details
              ⟨q, pyRound2 (covRaw (file_stats (extract_entities m))),
               file_stats (extract_entities m)⟩ := hin
          rcases mem_setDetail _ _ _ hin' with h' | h'
          · exact Or.inl h'
          · subst h'
            exact Or.inr ⟨m, hq, rfl, rfl⟩
        · exact Or.inr hgood

theorem pyRound2_eq (x : ℚ) (n : ℤ) (h1 : (n : ℚ) ≤ x * 100)
    (h2 : x * 100 < (n : ℚ) + 1 / 2) : pyRound2 x = (n : ℚ) / 100 := by
  unfold pyRound2
  rw [roundHalfEven_of_lt _ n h1 h2]

/-- C2: `generate_coverage_report` computes per-file `total` as the count
of every Declaration node (module + classes + methods + functions),
per-file coverage by the round-or-zero rule, and `overall_coverage` by the
same rule over the raw summed counts across files — which differs from the
arithmetic mean of the per-file percentages (last conjunct: files with
1/2 and 9/10 documented give 83.33 overall, not the 70.0 mean). -/
theorem C2_coverage_aggregation :
    (∀ (fs : PyStr → FSEntry) (files : List PyStr) (r : Report),
      generate_coverage_report fs files = .ok r →
        r.total_entities = (sumStatsSpec fs files).total
        ∧ r.documented_entities = (sumStatsSpec fs files).documented
        ∧ r.overall_coverage = (if r.total_entities > 0 then
            pyRound2 ((r.documented_entities : ℚ) / (r.total_entities : ℚ) * 100) else 0)
        ∧ ∀ d ∈ r.details, ∃ m, fs d.path = .parsed m
            ∧ d.stats = file_stats (extract_entities m)
            ∧ d.stats.total = declCountSpec (extract_entities m)
            ∧ d.stats.documented = docCountSpec (extract_entities m)
            ∧ d.coverage = (if d.stats.total > 0 then
                pyRound2 ((d.stats.documented : ℚ) / (d.stats.total : ℚ) * 100) else 0))
    ∧ pyRound2 ((10 : ℚ) / 12 * 100)
        ≠ (pyRound2 ((1 : ℚ) / 2 * 100) + pyRound2 ((9 : ℚ) / 10 * 100)) / 2 := by
  constructor
  · intro fs files r h
    unfold generate_coverage_report at h
    cases hres : coverageFold fs
        { files_analyzed := files.length, total_entities := 0,
          documented_entities := 0, details := [], overall_coverage := 0 } files with
    | error e => rw [hres] at h; cases h
    | ok r' =>
      rw [hres] at h
      have hr : r = { r' with overall_coverage :=
          (if r'.total_entities > 0 then
            pyRound2 ((r'.documented_entities : ℚ) / (r'.total_entities : ℚ) * 100)
          else 0) } := by cases h; rfl
      rcases coverageFold_ok_spec fs files _ r' hres with ⟨h1, h2, h3⟩
      subst hr
      refine ⟨by simpa using h1, by simpa using h2, rfl, ?_⟩
      intro d hd
      rcases h3 d hd with hin | ⟨m, hm, hst, hcov⟩
      · cases hin
      · refine ⟨m, hm, hst, ?_, ?_, ?_⟩
        · rw [hst, file_stats_spec]
        · rw [hst, file_stats_spec]
        · rw [hcov, pyRound2_covRaw]
  · have e1 : pyRound2 ((1 : ℚ) / 2 * 100) = ((5000 : ℤ) : ℚ) / 100 :=
      pyRound2_eq _ 5000 (by norm_num) (by norm_num)
    have e2 : pyRound2 ((9 : ℚ) / 10 * 100) = ((9000 : ℤ) : ℚ) / 100 :=
      pyRound2_eq _ 9000 (by norm_num) (by norm_num)
    have e3 : pyRound2 ((10 : ℚ) / 12 * 100) = ((8333 : ℤ) : ℚ) / 100 :=
      pyRound2_eq _ 8333 (by norm_num) (by norm_num)
    rw [e1, e2, e3]
    norm_num

/-- C2 witness: the aggregation theorem applied to the empty file list
over an empty filesystem (report `⟨0, 0, 0, [], 0⟩`). -/
theorem C2_coverage_aggregation_witness :
    generate_coverage_report (fun _ => FSEntry.missing) [] = .ok ⟨0, 0, 0, [], 0⟩
    ∧ ((⟨0, 0, 0, [], 0⟩ : Report).total_entities
          = (sumStatsSpec (fun _ => FSEntry.missing) []).total
      ∧ (⟨0, 0, 0, [], 0⟩ : Report).documented_entities
          = (sumStatsSpec (fun _ => FSEntry.missing) []).documented
      ∧ (⟨0, 0, 0, [], 0⟩ : Report).overall_coverage
          = (if (⟨0, 0, 0, [], 0⟩ : Report).total_entities > 0 then
              pyRound2 (((⟨0, 0, 0, [], 0⟩ : Report).documented_entities : ℚ)
                / ((⟨0, 0, 0, [], 0⟩ : Report).total_entities : ℚ) * 100) else 0)
      ∧ ∀ d ∈ (⟨0, 0, 0, [], 0⟩ : Report).details,
          ∃ m, (fun _ => FSEntry.missing) d.path = .parsed m
            ∧ d.stats = file_stats (extract_entities m)
            ∧ d.stats.total = declCountSpec (extract_entities m)
            ∧ d.stats.documented = docCountSpec (extract_entities m)
            ∧ d.coverage = (if d.stats.total > 0 then
                pyRound2 ((d.stats.documented : ℚ) / (d.stats.total : ℚ) * 100) else 0)) :=
  ⟨rfl, C2_coverage_aggregation.1 (fun _ => FSEntry.missing) [] ⟨0, 0, 0, [], 0⟩ rfl⟩

/-! ## Claim C5 — flattener output order -/

/-- C5 counterexample: for a module declaring class `A` on line 1 before
function `f` on line 10, the flattener emits `f` first — the output is not
in source declaration order (depth-first pre-order would put `A` first). -/
theorem C5_counterexample :
    (entity_list_of (extract_entities mClassThenFunc)).map (fun r => r.function_name)
      = [chars "f", chars "A"]
    ∧ (entity_list_of (extract_entities mClassThenFunc)).map (fun r => r.start_line)
      = [10, 1]
    ∧ (1 : Nat) < 10 := by
  decide

theorem foldl_append_map {α β : Type} (g : α → β) (l : List α) :
    ∀ init : List β, l.foldl (fun acc x => acc ++ [g x]) init = init ++ l.map g := by
  induction l with
  | nil => intro init; simp
  | cons x l ih =>
    intro init
    simp only [List.foldl_cons, List.map_cons, ih]
    simp

theorem foldl_append_flatMap {α β : Type} (g : α → List β) (l : List α) :
    ∀ init : List β, l.foldl (fun acc x => acc ++ g x) init = init ++ l.flatMap g := by
  induction l with
  | nil => intro init; simp
  | cons x l ih =>
    intro init
    simp only [List.foldl_cons, List.flatMap_cons, ih]
    simp

theorem foldl_classBlocks (cs : List ClassInfo) :
    ∀ init : List EntityRecord,
    cs.foldl
      (fun acc c =>
        c.methods.foldl (fun acc2 mm => acc2 ++ [methodRecord mm]) (acc ++ [classRecord c]))
      init
      = init ++ cs.flatMap (fun c => classRecord c :: c.methods.map methodRecord) := by
  have hfun : (fun (acc : List EntityRecord) (c : ClassInfo) =>
      c.methods.foldl (fun acc2 mm => acc2 ++ [methodRecord mm]) (acc ++ [classRecord c]))
      = fun acc c => acc ++ (classRecord c :: c.methods.map methodRecord) := by
    funext acc c
    rw [foldl_append_map]
    simp
  intro init
  rw [hfun, foldl_append_flatMap]

/-- C5 (amended): the flattener emits all module-level callables first, in
declaration order, then every class in extractor traversal order, each
immediately followed by its methods in declaration order; the output is a
pure function of the inventory, hence stable and deterministic. -/
theorem C5_amended_flattener_order (e : Entities) :
    entity_list_of e = flattenSpecC5 e := by
  unfold entity_list_of flattenSpecC5
  rw [foldl_append_map, foldl_classBlocks]
  simp

/-! ## Claim C6 — documentation-presence rule -/

/-- C6 counterexample: a function whose first body statement is the empty
string literal `""` — a bare string-literal expression — is reported as
undocumented by both the flattener and the coverage counter, because the
code tests Python truthiness (`bool("")` is `False`), not statement shape. -/
theorem C6_counterexample :
    firstStmtIsStringLit [Stmt.exprStr [] 2] = true
    ∧ (entity_list_of (extract_entities mEmptyDoc)).map (fun r => r.has_docstring) = [false]
    ∧ (file_stats (extract_entities mEmptyDoc)).documented = 0 := by
  decide

theorem expandTabsAux_spaces (n : Nat) : ∀ col : Nat,
    expandTabsAux (List.replicate n ' ') col = List.replicate n ' ' := by
  induction n with
  | zero => intro col; rfl
  | succ n ih =>
    intro col
    rw [List.replicate_succ]
    simp only [expandTabsAux]
    rw [if_neg (by decide), if_neg (by decide), ih (col + 1)]

theorem splitNL_spaces (n : Nat) :
    splitNL (List.replicate n ' ') = [List.replicate n ' '] := by
  induction n with
  | zero => rfl
  | succ n ih =>
    rw [List.replicate_succ]
    simp only [splitNL]
    rw [if_neg (by decide), ih]

theorem dropWhile_space_replicate (n : Nat) :
    (List.replicate n ' ').dropWhile (fun c => c = ' ') = [] := by
  induction n with
  | zero => rfl
  | succ n ih =>
    rw [List.replicate_succ]
    simp only [List.dropWhile_cons]
    rw [if_pos (by decide)]
    exact ih

theorem pyCleandoc_spaces (n : Nat) :
    pyCleandoc (List.replicate n ' ') = [] := by
  unfold pyCleandoc
  rw [expandTabsAux_spaces n 0, splitNL_spaces n]
  rw [show cleandocLines [List.replicate n ' ']
      = [(List.replicate n ' ').dropWhile (fun c => c = ' ')] from rfl]
  rw [dropWhile_space_replicate n]
  rfl

/-- C6 (amended): a declaration is reported as documented iff the first
statement of its body is a bare string-literal expression whose text is
NON-EMPTY after `ast.get_docstring`'s `inspect.cleandoc` normalization; an
empty string literal never counts, and neither does one that normalizes
to empty, such as a literal of only spaces or a single tab (and a comment,
which is never a statement, cannot count).  The module's recorded
docstring is exactly `get_docstring` of the module body. -/
theorem C6_amended_documentation_rule :
    (∀ body : List Stmt, pyBool (get_docstring body) = true ↔
      ∃ s l rest, body = Stmt.exprStr s l :: rest ∧ pyCleandoc s ≠ ([] : PyStr))
    ∧ (∀ n : Nat, pyCleandoc (List.replicate n ' ') = [])
    ∧ pyCleandoc (chars "\t") = []
    ∧ pyCleandoc [] = []
    ∧ ∀ m : PyModule, (extract_entities m).module_docstring = get_docstring m.body := by
  refine ⟨?_, pyCleandoc_spaces, by decide, by decide, fun m => rfl⟩
  intro body
  cases body with
  | nil => simp [get_docstring, pyBool]
  | cons s rest =>
    cases s with
    | funcDef ia n a l e b => simp [get_docstring, pyBool]
    | classDef n l e b => simp [get_docstring, pyBool]
    | other l => simp [get_docstring, pyBool]
    | exprStr v l =>
      simp only [get_docstring, pyBool, Bool.not_eq_true']
      constructor
      · intro hv
        refine ⟨v, l, rest, rfl, ?_⟩
        intro hempty
        rw [hempty] at hv
        simp at hv
      · rintro ⟨s, l', rest', heq, hne⟩
        have hv : v = s := by
          injection heq with h1 _
          injection h1
        subst hv
        cases hc : pyCleandoc v with
        | nil => exact absurd hc hne
        | cons c cs => simp [hc, List.isEmpty]

/-! ## Claim C7 — insertion-point scan -/

theorem findColonAux_spec : ∀ (n : Nat) (lines : List PyStr) (i j : Nat),
    j - i = n → i ≤ j → j < lines.length →
    (lines.getD j []).contains ':' = true →
    (∀ k, k < j → i ≤ k → (lines.getD k []).contains ':' = false) →
    findColonFrom lines i = j := by
  intro n
  induction n with
  | zero =>
    intro lines i j hn hij hj hcol _
    have hji : i = j := by omega
    subst hji
    unfold findColonFrom
    rw [List.drop_eq_getElem_cons hj]
    rw [List.getD_eq_getElem lines [] hj] at hcol
    simp only [findColonAux]
    rw [hcol]
    simp
  | succ n ih =>
    intro lines i j hn hij hj hcol hnone
    have hilt : i < j := by omega
    have hi : i < lines.length := by omega
    unfold findColonFrom
    rw [List.drop_eq_getElem_cons hi]
    have hcur : lines[i].contains ':' = false := by
      rw [← List.getD_eq_getElem lines [] hi]
      exact hnone i hilt (le_refl i)
    simp only [findColonAux, hcur, Bool.false_eq_true, if_false]
    have := ih lines (i + 1) j (by omega) (by omega) hj hcol
      (fun k hk hik => hnone k hk (by omega))
    unfold findColonFrom at this
    exact this

/-- C7: for an undocumented declaration at 1-based header line `idx`, the
inserter scans forward from the header line to the first line containing
the terminator `':'` (at 0-based index `j`) and splices the block
immediately after that line; in particular, for a header wrapped across
three physical lines with the terminator on the third, the block lands
after the third line.  For the module (`line 0`) the block goes at the
very top of the file. -/
theorem C7_insertion_point :
    (∀ (lines : List PyStr) (idx : Nat) (doc : PyStr) (j : Nat),
      1 ≤ idx → idx - 1 ≤ j → j < lines.length →
      (lines.getD j []).contains ':' = true →
      (∀ k, k < j → idx - 1 ≤ k → (lines.getD k []).contains ':' = false) →
      applyInsertion lines (idx, doc)
        = lines.take (j + 1) ++ [doc ++ chars "\n"] ++ lines.drop (j + 1))
    ∧ (∀ (lines : List PyStr) (doc : PyStr),
      applyInsertion lines (0, doc) = (doc ++ chars "\n") :: lines) := by
  constructor
  · intro lines idx doc j h1 h2 hj hcol hnone
    unfold applyInsertion
    have hne : ¬ ((idx, doc).1 = 0) := by simp; omega
    rw [if_neg hne]
    rw [findColonAux_spec (j - (idx - 1)) lines (idx - 1) j rfl h2 hj hcol hnone]
    rfl
  · intro lines doc
    unfold applyInsertion pyInsert
    simp

/-- C7 witness: the scan theorem applied to a concrete file whose second
declaration header `def g(a,` wraps across three physical lines (indices
1–3, terminator on index 3): the block is inserted at index 4, after the
third header line, not after the first. -/
theorem C7_insertion_point_witness :
    applyInsertion linesWrapped (2, chars "x")
      = linesWrapped.take 4 ++ [chars "x" ++ chars "\n"] ++ linesWrapped.drop 4 :=
  C7_insertion_point.1 linesWrapped 2 (chars "x") 3 (by decide) (by decide)
    (by decide) (by decide) (by decide)

/-! ## Claim C8 — synthesized block shape -/

/-- C8 counterexample: for `add_numbers(a, b)` at indent 4 the block's
physical lines are as expected except that the separator line after the
first line is EMPTY — it does not carry the 4-space indent, so not every
line of the block is indented at the given indent level. -/
theorem C8_counterexample :
    List.splitOn '\n'
      (generate_google_docstring (chars "add_numbers") [chars "a", chars "b"] false 4)
      = [chars "    \"\"\"Add numbers.", [],
         chars "    Args:", chars "        a: Description of a.",
         chars "        b: Description of b.",
         [], chars "    Returns:", chars "        Description of the return value.",
         chars "    \"\"\""]
    ∧ ((List.splitOn '\n'
        (generate_google_docstring (chars "add_numbers") [chars "a", chars "b"] false 4)).getD
          1 (spaces 4)).take 4 ≠ spaces 4 := by
  decide

theorem lineJoin_cons_cons (l m : PyStr) (rest : List PyStr) :
    lineJoin (l :: m :: rest) = l ++ '\n' :: lineJoin (m :: rest) := rfl

theorem joinNL_append (xs ys : List PyStr) :
    joinNL (xs ++ ys) = joinNL xs ++ joinNL ys := by
  unfold joinNL
  rw [List.map_append, List.flatten_append]

theorem lineJoin_append_last (ls : List PyStr) : ∀ tail : List PyStr, tail ≠ [] →
    lineJoin (ls ++ tail) = joinNL ls ++ lineJoin tail := by
  induction ls with
  | nil => intro tail _; simp [joinNL]
  | cons l ls ih =>
    intro tail ht
    cases hlt : ls ++ tail with
    | nil =>
      rcases List.append_eq_nil.mp hlt with ⟨_, h2⟩
      exact absurd h2 ht
    | cons m rest =>
      rw [List.cons_append, hlt, lineJoin_cons_cons, ← hlt, ih tail ht]
      simp [joinNL, List.append_assoc]

theorem foldl_argLines (pad : PyStr) (as : List PyStr) : ∀ d0 : PyStr,
    as.foldl
      (fun d a => d ++ pad ++ spaces 4 ++ a ++ chars ": Description of " ++ a ++ chars ".\n")
      d0
      = d0 ++ joinNL (as.map (argLine pad)) := by
  induction as with
  | nil => intro d0; simp [joinNL]
  | cons a as ih =>
    intro d0
    rw [List.foldl_cons, ih]
    simp [joinNL, argLine, List.append_assoc]
    rw [show chars ".\n" = chars "." ++ ['\n'] from rfl]
    simp [List.append_assoc]

theorem lineJoin_block (A B H : PyStr) (M X : List PyStr) (Q : PyStr) :
    lineJoin ([A, B] ++ H :: M ++ X ++ [Q]) = joinNL ([A, B, H] ++ M ++ X) ++ Q := by
  have hsh : [A, B] ++ H :: M ++ X ++ [Q] = ([A, B, H] ++ M ++ X) ++ [Q] := by simp
  rw [hsh, lineJoin_append_last _ [Q] (by simp)]
  rfl

/-- C8 (amended): the synthesized block's physical lines are exactly: the
name (underscores to spaces, first letter capitalized and the rest
lowercased, as Python's `str.capitalize`) followed by a period, an EMPTY
separator line, an Args section (one `<param>: Description of <param>.`
line per parameter) only when the parameter list is non-empty, for
non-types an empty separator and a Returns section with a generic
placeholder, and the closing quotes; every non-empty line is indented at
the given indent level, while separator lines are empty. -/
theorem C8_amended_block_lines (name : PyStr) (fnArgs : List PyStr)
    (is_class : Bool) (indent : Nat) :
    generate_google_docstring name fnArgs is_class indent
      = lineJoin (docLinesSpec name fnArgs is_class indent) := by
  have hsplit1 : chars ".\n\n" = chars "." ++ ['\n'] ++ ['\n'] := rfl
  have hsplit2 : chars "Args:\n" = chars "Args:" ++ ['\n'] := rfl
  have hsplit3 : chars "Returns:\n" = chars "Returns:" ++ ['\n'] := rfl
  have hsplit4 : chars "Description of the return value.\n"
      = chars "Description of the return value." ++ ['\n'] := rfl
  have hsplit5 : chars "\n" = ['\n'] := rfl
  cases fnArgs with
  | nil =>
    cases is_class with
    | true =>
      unfold generate_google_docstring docLinesSpec
      simp [lineJoin, hsplit1, List.append_assoc]
    | false =>
      unfold generate_google_docstring docLinesSpec
      simp [lineJoin, hsplit1, hsplit3, hsplit4, hsplit5, List.append_assoc]
  | cons a as =>
    cases is_class with
    | true =>
      unfold generate_google_docstring docLinesSpec
      rw [show (a :: as).isEmpty = false from rfl]
      simp only [Bool.false_eq_true, if_false, if_true]
      rw [foldl_argLines, lineJoin_block, joinNL_append, joinNL_append]
      simp [joinNL, hsplit1, hsplit2, List.append_assoc]
    | false =>
      unfold generate_google_docstring docLinesSpec
      rw [show (a :: as).isEmpty = false from rfl]
      simp only [Bool.false_eq_true, if_false]
      rw [foldl_argLines, lineJoin_block, joinNL_append, joinNL_append]
      simp [joinNL, hsplit1, hsplit2, hsplit3, hsplit4, hsplit5, List.append_assoc]

/-! ## Claim C9 — extracted parameters -/

/-- C9 counterexample: for `def g(a, *, b)` the extracted parameter list is
`[a]` — the keyword-only parameter `b` is dropped because only the plain
positional slot is read — while the claim's "all declared names minus
receivers" would be `[a, b]`. -/
theorem C9_counterexample :
    (extract_entities mKwOnly).functions.map (fun f => f.fnArgs) = [[chars "a"]]
    ∧ declaredMinusReceivers aKwOnly = [chars "a", chars "b"]
    ∧ ([[chars "a"]] : List (List PyStr)) ≠ [[chars "a", chars "b"]] := by
  decide

/-- A parameter list containing neither receiver name. -/
def cleanArgs (l : List PyStr) : Prop :=
  chars "self" ∉ l ∧ chars "cls" ∉ l

/-- Every callable record accumulated so far has receiver-free
parameters. -/
def cleanState (st : ExtState) : Prop :=
  (∀ fi ∈ st.functions, cleanArgs fi.fnArgs)
  ∧ (∀ c ∈ st.classes, ∀ fi ∈ c.methods, cleanArgs fi.fnArgs)

theorem pyArgsFilter_clean (a : Arguments) : cleanArgs (pyArgsFilter a) := by
  constructor <;> intro hmem <;>
    rcases List.mem_filter.mp hmem with ⟨_, hcond⟩ <;> simp at hcond

theorem mem_modifyAt (f : ClassInfo → ClassInfo) :
    ∀ (cs : List ClassInfo) (i : Nat) (x : ClassInfo), x ∈ modifyAt i f cs →
    x ∈ cs ∨ ∃ c ∈ cs, x = f c := by
  intro cs
  induction cs with
  | nil =>
    intro i x hx
    simp only [modifyAt] at hx
    cases hx
  | cons c cs ih =>
    intro i x hx
    cases i with
    | zero =>
      rcases List.mem_cons.mp hx with rfl | hx'
      · exact Or.inr ⟨c, List.mem_cons_self c cs, rfl⟩
      · exact Or.inl (List.mem_cons_of_mem c hx')
    | succ j =>
      rcases List.mem_cons.mp hx with rfl | hx'
      · exact Or.inl (List.mem_cons_self x cs)
      · rcases ih j x hx' with h | ⟨c', hc', hxc'⟩
        · exact Or.inl (List.mem_cons_of_mem c h)
        · exact Or.inr ⟨c', List.mem_cons_of_mem c hc', hxc'⟩

mutual
theorem visitStmt_clean (cur : Option Nat) (st : ExtState) (s : Stmt)
    (h : cleanState st) : cleanState (visitStmt cur st s) := by
  cases s with
  | funcDef ia n a l e body =>
    cases cur with
    | none =>
      refine ⟨?_, h.2⟩
      intro fi hfi
      rcases List.mem_append.mp hfi with hfi | hfi
      · exact h.1 fi hfi
      · rcases List.mem_singleton.mp hfi with rfl
        exact pyArgsFilter_clean a
    | some i =>
      refine ⟨h.1, ?_⟩
      intro c hc fi hfi
      rcases mem_modifyAt _ st.classes i c hc with hc' | ⟨c', hc', rfl⟩
      · exact h.2 c hc' fi hfi
      · rcases List.mem_append.mp hfi with hfi | hfi
        · exact h.2 c' hc' fi hfi
        · rcases List.mem_singleton.mp hfi with rfl
          exact pyArgsFilter_clean a
  | classDef n l e body =>
    refine visitStmts_clean _ _ body ⟨h.1, ?_⟩
    intro c hc fi hfi
    rcases List.mem_append.mp hc with hc' | hc'
    · exact h.2 c hc' fi hfi
    · rcases List.mem_singleton.mp hc' with rfl
      cases hfi
  | exprStr v l => exact h
  | other l => exact h

theorem visitStmts_clean (cur : Option Nat) (st : ExtState) (l : List Stmt)
    (h : cleanState st) : cleanState (visitStmts cur st l) := by
  cases l with
  | nil => exact h
  | cons s rest => exact visitStmts_clean cur (visitStmt cur st s) rest (visitStmt_clean cur st s h)
end

/-- C9 (amended): ordinary and asynchronous callables are extracted
identically; the extracted parameter list is the filter of the PLAIN
POSITIONAL parameter slot only (positional-only, keyword-only, `*args`
and `**kwargs` names are never included), so it is a sublist of that slot
in declaration order; and no extracted callable — function or method —
ever carries a parameter named `self` or `cls`. -/
theorem C9_amended_parameters :
    (∀ (cur : Option Nat) (st : ExtState) (n : PyStr) (a : Arguments) (l e : Nat)
        (body : List Stmt),
      visitStmt cur st (.funcDef true n a l e body)
        = visitStmt cur st (.funcDef false n a l e body))
    ∧ (∀ a : Arguments, List.Sublist (pyArgsFilter a) a.args)
    ∧ (∀ (m : PyModule) (fi : FuncInfo), fi ∈ allCallableInfos (extract_entities m) →
        chars "self" ∉ fi.fnArgs ∧ chars "cls" ∉ fi.fnArgs) := by
  refine ⟨fun _ _ _ _ _ _ _ => rfl, fun a => List.filter_sublist a.args, ?_⟩
  intro m fi hfi
  have hclean : cleanState (visitStmts none ⟨[], []⟩ m.body) :=
    visitStmts_clean none ⟨[], []⟩ m.body
      ⟨(fun fi h => absurd h (List.not_mem_nil fi)),
       (fun c h => absurd h (List.not_mem_nil c))⟩
  unfold allCallableInfos at hfi
  rcases List.mem_append.mp hfi with hfi | hfi
  · exact hclean.1 fi hfi
  · rcases List.mem_flatMap.mp hfi with ⟨c, hc, hfic⟩
    exact hclean.2 c hc fi hfic

/-- C9 witness: the receiver-free conclusion applied to the module
`def g(a, *, b)` and its extracted record. -/
theorem C9_amended_parameters_witness :
    chars "self" ∉ (⟨chars "g", none, 1, 2, [chars "a"]⟩ : FuncInfo).fnArgs
    ∧ chars "cls" ∉ (⟨chars "g", none, 1, 2, [chars "a"]⟩ : FuncInfo).fnArgs :=
  C9_amended_parameters.2.2 mKwOnly ⟨chars "g", none, 1, 2, [chars "a"]⟩ (by decide)

/-! ## Claim C10 — module always counted; coverage 0.0 -/

theorem visitStmts_replicate_funcDef (n : Nat) : ∀ st : ExtState,
    visitStmts none st
      (List.replicate n (Stmt.funcDef false (chars "u") noArgs 2 2 []))
      = { st with functions :=
          st.functions ++ List.replicate n ⟨chars "u", none, 2, 2, []⟩ } := by
  induction n with
  | zero => intro st; simp [List.replicate, visitStmts]
  | succ n ih =>
    intro st
    rw [List.replicate_succ]
    show visitStmts none
      (visitStmt none st (Stmt.funcDef false (chars "u") noArgs 2 2 [])) _ = _
    rw [show visitStmt none st (Stmt.funcDef false (chars "u") noArgs 2 2 [])
        = { st with functions := st.functions ++ [⟨chars "u", none, 2, 2, []⟩] } from rfl]
    rw [ih]
    simp [List.replicate_succ]

theorem extract_mBig :
    extract_entities mBig =
      { module_docstring := some (chars "doc"), module_line := 1,
        module_name := chars "Module", classes := [],
        functions := List.replicate 20000 ⟨chars "u", none, 2, 2, []⟩ } := by
  have hcons : ∀ (cur : Option Nat) (st : ExtState) (s : Stmt) (l : List Stmt),
      visitStmts cur st (s :: l) = visitStmts cur (visitStmt cur st s) l :=
    fun _ _ _ _ => rfl
  have hbody : visitStmts none (⟨[], []⟩ : ExtState) mBig.body
      = ⟨[], List.replicate 20000 ⟨chars "u", none, 2, 2, []⟩⟩ := by
    rw [show mBig.body = Stmt.exprStr (chars "doc") 1 ::
        List.replicate 20000 (Stmt.funcDef false (chars "u") noArgs 2 2 []) from rfl]
    rw [hcons]
    rw [show visitStmt none (⟨[], []⟩ : ExtState) (Stmt.exprStr (chars "doc") 1)
        = (⟨[], []⟩ : ExtState) from rfl]
    rw [visitStmts_replicate_funcDef]
    rw [List.nil_append]
  simp only [extract_entities]
  rw [hbody]
  rfl

theorem countP_replicate_none (n : Nat) :
    List.countP pyBool (List.replicate n (none : Option PyStr)) = 0 := by
  induction n with
  | zero => simp
  | succ n ih => rw [List.replicate_succ, List.countP_cons]; simp [ih, pyBool]

theorem file_stats_mBig : file_stats (extract_entities mBig) = ⟨20001, 1⟩ := by
  rw [extract_mBig]
  unfold file_stats checkItems
  simp only [List.flatMap_nil, List.map_replicate]
  rw [foldl_statCheck]
  simp only [FileStats.mk.injEq]
  constructor
  · rw [List.length_append, List.length_replicate]
    decide
  · rw [List.countP_append, countP_replicate_none, List.countP_cons]
    decide

theorem pyRound2_big : pyRound2 (covRaw ⟨20001, 1⟩) = 0 := by
  have h1 : covRaw ⟨20001, 1⟩ = (1 : ℚ) / 20001 * 100 := by
    unfold covRaw
    norm_num
  rw [h1, pyRound2_eq _ 0 (by norm_num) (by norm_num)]
  norm_num

/-- C10 counterexample: a parseable file with a documented module and
20000 undocumented functions — 1 documented declaration out of 20001 —
is reported with per-file (and overall) coverage `0.0` even though its
documented count is 1, not 0: the rounded percentage `100/20001 ≈ 0.005`
rounds to zero, so a coverage of `0.0` does not imply zero documented
entities. -/
theorem C10_counterexample :
    generate_coverage_report fsBig [chars "big.py"] =
      .ok { files_analyzed := 1, total_entities := 20001, documented_entities := 1,
            details := [⟨chars "big.py", 0, ⟨20001, 1⟩⟩], overall_coverage := 0 }
    ∧ (1 : Nat) ≠ 0 := by
  have hfs : fsBig (chars "big.py") = .parsed mBig := by
    unfold fsBig
    rw [if_pos rfl]
  have hupd : coverageUpdate ⟨1, 0, 0, [], 0⟩ (chars "big.py") mBig
      = ⟨1, 20001, 1, [⟨chars "big.py", 0, ⟨20001, 1⟩⟩], 0⟩ := by
    unfold coverageUpdate
    rw [file_stats_mBig, pyRound2_big]
    simp [setDetail]
  have hstep : coverageFold fsBig ⟨1, 0, 0, [], 0⟩ [chars "big.py"]
      = .ok ⟨1, 20001, 1, [⟨chars "big.py", 0, ⟨20001, 1⟩⟩], 0⟩ := by
    simp only [coverageFold_cons, hfs, hupd]
    rfl
  constructor
  · unfold generate_coverage_report
    rw [show [chars "big.py"].length = 1 from rfl, hstep]
    have hov : (if (20001 : Nat) > 0 then
        pyRound2 (((1 : Nat) : ℚ) / ((20001 : Nat) : ℚ) * 100) else 0) = (0 : ℚ) := by
      rw [if_pos (by norm_num)]
      rw [pyRound2_eq _ 0 (by push_cast; norm_num) (by push_cast; norm_num)]
      norm_num
    simpa using hov
  · decide

/-- C10 (amended): every parsed file's entity count is at least 1 (the
module is always counted), so the `total = 0` guard branch is unreachable
for parsed files and per-file coverage is always computed by the division
branch; a reported coverage of `0.0` can nevertheless arise with a
non-zero documented count, when the exact percentage rounds to zero (see
the counterexample: 1 of 20001). -/
theorem C10_amended_module_counted (m : PyModule) :
    1 ≤ (file_stats (extract_entities m)).total
    ∧ covRaw (file_stats (extract_entities m))
        = ((file_stats (extract_entities m)).documented : ℚ)
          / ((file_stats (extract_entities m)).total : ℚ) * 100 := by
  have htot : (file_stats (extract_entities m)).total
      = declCountSpec (extract_entities m) := by rw [file_stats_spec]
  have h1 : 1 ≤ (file_stats (extract_entities m)).total := by
    rw [htot]; unfold declCountSpec; omega
  refine ⟨h1, ?_⟩
  unfold covRaw
  rw [if_pos (by omega)]
